import Mathlib

/-!
Verification development for the weather-impact analysis core
(`weather_impact_analysis/knn_analyzer.py`): a shallow embedding of the
feature normalizer, the KNN similarity search (`WeatherKNN`), and the
incident-join / risk-prediction layer (`AssetImpactAnalyzer`), together
with theorems settling the specification claims.

Modelling conventions:
* Numeric (float) values are embedded as exact rationals `ℚ`; machine
  floating point is modelled as exact arithmetic.
* The Euclidean distance computed by `_euclidean_distance` is
  `sqrt (sum of squared coordinate differences)`.  Since the square root
  is strictly monotone, the pipeline carries the (rational) squared
  distance; the real-valued distance `Real.sqrt` is applied at the
  statement level, and the bridge between the squared distance and the
  sum of squared differences of the (real-valued) z-score-normalized
  coordinates is proved as a lemma.
* `pandas` dataframes are embedded as lists of records, in row order.
* Python's stable `list.sort` / stable small-array argsort are modelled
  with `List.insertionSort`, which is a stable sort with the same
  comparator semantics (the output of a stable sort is uniquely
  determined by the comparator, so this is extensionally faithful).
* Python string comparison (by code point) is embedded as the
  lexicographic order `charLe` on `String.data`, defined structurally so
  that it evaluates by kernel reduction.
-/

/-- The five weather feature columns, in the fixed order used by
`WeatherKNN.feature_columns`. -/
inductive Feature where
  | temperature_c
  | wind_speed_kmh
  | precipitation_mm
  | humidity_percent
  | duration_hours
deriving DecidableEq

/-- The list `WeatherKNN.feature_columns`, in source order. -/
def featureColumns : List Feature :=
  [Feature.temperature_c, Feature.wind_speed_kmh, Feature.precipitation_mm,
   Feature.humidity_percent, Feature.duration_hours]

/-- A historical weather event row (`events_df`): an integer identifier and
the five numeric features. -/
structure WeatherEvent where
  event_id : ℕ
  temperature_c : ℚ
  wind_speed_kmh : ℚ
  precipitation_mm : ℚ
  humidity_percent : ℚ
  duration_hours : ℚ
deriving DecidableEq

/-- A query event (`current_event`): the five features, no identifier. -/
structure QueryEvent where
  temperature_c : ℚ
  wind_speed_kmh : ℚ
  precipitation_mm : ℚ
  humidity_percent : ℚ
  duration_hours : ℚ
deriving DecidableEq

/-- Feature projection of a historical event. -/
def featVal (e : WeatherEvent) : Feature → ℚ
  | Feature.temperature_c => e.temperature_c
  | Feature.wind_speed_kmh => e.wind_speed_kmh
  | Feature.precipitation_mm => e.precipitation_mm
  | Feature.humidity_percent => e.humidity_percent
  | Feature.duration_hours => e.duration_hours

/-- Feature projection of a query event. -/
def queryVal (q : QueryEvent) : Feature → ℚ
  | Feature.temperature_c => q.temperature_c
  | Feature.wind_speed_kmh => q.wind_speed_kmh
  | Feature.precipitation_mm => q.precipitation_mm
  | Feature.humidity_percent => q.humidity_percent
  | Feature.duration_hours => q.duration_hours

/-- Mean of a feature column over the loaded events
(`events_df[col].mean()` in `load_historical_data`).  For the empty
collection the `ℚ`-division by zero yields `0` (pandas yields `NaN`, on
which every `> 0` comparison is likewise false). -/
def featMean (ev : List WeatherEvent) (f : Feature) : ℚ :=
  ((ev.map (fun e => featVal e f)).sum) / (ev.length : ℚ)

/-- Variance of a feature column as computed by pandas
(`events_df[col].std()` squared): pandas `Series.std` uses `ddof = 1`,
i.e. the *sample* variance with divisor `n - 1`.  For `n ≤ 1` the
`ℚ`-division by zero yields `0` (pandas yields `NaN`, and `NaN > 0` is
false, which is exactly how the `0`-valued variance behaves in every
guard of the source). -/
def featVar (ev : List WeatherEvent) (f : Feature) : ℚ :=
  ((ev.map (fun e => (featVal e f - featMean ev f) ^ 2)).sum) / ((ev.length - 1 : ℕ) : ℚ)

/-- Population variance of a feature column (divisor `n`).  This
definition follows the specification's words ("population standard
deviation"); it is *not* what the source computes, and is used to compare
the two. -/
def populationVariance (ev : List WeatherEvent) (f : Feature) : ℚ :=
  ((ev.map (fun e => (featVal e f - featMean ev f) ^ 2)).sum) / (ev.length : ℚ)

/-- The standard deviation stored in `feature_stats[col]['std']`: the
square root of the pandas (sample) variance. -/
noncomputable def featStd (ev : List WeatherEvent) (f : Feature) : ℝ :=
  Real.sqrt ((featVar ev f : ℚ) : ℝ)

/-- Population standard deviation, per the specification's words. -/
noncomputable def popStd (ev : List WeatherEvent) (f : Feature) : ℝ :=
  Real.sqrt ((populationVariance ev f : ℚ) : ℝ)

/-- Z-score normalization of one feature value
(`_normalize_features` and the query-normalization loop of
`find_similar_events`, which apply the same formula):
`(value - mean) / std` when `std > 0`, else `0`. -/
noncomputable def normalizedFeature (ev : List WeatherEvent) (f : Feature) (x : ℚ) : ℝ :=
  if 0 < featStd ev f then (((x : ℚ) : ℝ) - ((featMean ev f : ℚ) : ℝ)) / featStd ev f else 0

/-- Squared Euclidean distance, in the normalized feature space, between
the normalized query vector and the normalized vector of historical event
`e`.  Since both vectors are normalized with the same `mean`/`std`, the
per-feature squared difference `((q - m)/s - (v - m)/s)²` equals
`(q - v)² / var` when `var > 0`, and both normalized coordinates are `0`
when `std = 0`; the bridge to `normalizedFeature` is proved below. -/
def sqDist (ev : List WeatherEvent) (q : QueryEvent) (e : WeatherEvent) : ℚ :=
  (featureColumns.map (fun f =>
    if 0 < featVar ev f then (queryVal q f - featVal e f) ^ 2 / featVar ev f else 0)).sum

/-- The `(event_id, distance)` pairs built by the distance loop of
`find_similar_events`, tagged with the original row index so that the
stability of the subsequent sort can be stated.  Distances are carried as
squared distances (see `sqDist`). -/
def distancesFrom (ev : List WeatherEvent) (q : QueryEvent) : ℕ → List WeatherEvent → List (ℕ × ℕ × ℚ)
  | _, [] => []
  | i, e :: rest => (i, e.event_id, sqDist ev q e) :: distancesFrom ev q (i + 1) rest

/-- The full tagged distance list, one entry per historical row, in row
order. -/
def distancesList (ev : List WeatherEvent) (q : QueryEvent) : List (ℕ × ℕ × ℚ) :=
  distancesFrom ev q 0 ev

/-- Model of `distances.sort(key=lambda x: x[1])`: Python's stable sort by
distance, modelled by the stable `insertionSort` with the same
comparator. -/
def sortedDistances (ev : List WeatherEvent) (q : QueryEvent) : List (ℕ × ℕ × ℚ) :=
  List.insertionSort (fun a b => a.2.2 ≤ b.2.2) (distancesList ev q)

/-- Model of `WeatherKNN.find_similar_events`: sort all `(event_id, distance)`
pairs by distance and return the first `k` (the result drops the
row-index tag; distances are squared distances, see `sqDist`). -/
def find_similar_events (k : ℕ) (ev : List WeatherEvent) (q : QueryEvent) : List (ℕ × ℚ) :=
  ((sortedDistances ev q).take k).map (fun t => (t.2.1, t.2.2))

/-- Model of `WeatherKNN.get_event_details`: the first historical row whose
`event_id` matches, `none` when there is no such row (the source's
`.iloc[0]` raises on an empty selection instead of returning a
default). -/
def get_event_details (ev : List WeatherEvent) (eid : ℕ) : Option WeatherEvent :=
  (ev.filter (fun e => e.event_id = eid)).head?

/-- An asset-registry row (`assets_df`). The installation date is
embedded as a day number, so that `(now - installation_date).days` is the
difference of day numbers. -/
structure Asset where
  code : String
  name : String
  type : String
  category : String
  criticality : String
  condition_score : ℚ
  installation_date : ℤ
deriving DecidableEq

/-- An incident-log row (`incidents_df`). -/
structure Incident where
  event_id : ℕ
  asset_code : String
  damage_severity : String
  repair_cost_usd : ℚ
  downtime_hours : ℚ
deriving DecidableEq

/-- One row of the left-joined frame produced by
`AssetImpactAnalyzer.get_affected_assets`: the incident columns plus the
matched asset columns, `none` when the incident's `asset_code` matched no
asset (pandas null-fills the right-hand columns). -/
abbrev MergedRow := Incident × Option Asset

/-- Model of `AssetImpactAnalyzer.get_affected_assets`: filter the incident log to
the given event identifiers, then left-join against the asset registry on
`asset_code = code` (one output row per matching asset, a single
null-filled row when there is no match; left row order is preserved,
as pandas `merge(how='left')` does). -/
def get_affected_assets (assets : List Asset) (incidents : List Incident)
    (event_ids : List ℕ) : List MergedRow :=
  ((incidents.filter (fun i => i.event_id ∈ event_ids)).map (fun i =>
    let ms := assets.filter (fun a => a.code = i.asset_code)
    if ms.isEmpty then [(i, none)] else ms.map (fun a => (i, some a)))).flatten

/-- Lexicographic comparison of char lists by code point, structurally
recursive so that it evaluates by kernel reduction.  This is the order
Python/pandas use on strings. -/
def charLe : List Char → List Char → Bool
  | [], _ => true
  | _ :: _, [] => false
  | a :: as, b :: bs =>
    if a < b then true
    else if b < a then false
    else charLe as bs

/-- String order by code points (pandas sort order for string keys). -/
def strLe (a b : String) : Prop := charLe a.data b.data = true

instance : DecidableRel strLe := fun a b => instDecidableEqBool (charLe a.data b.data) true

/-- Strict string order: `≤` together with inequality. -/
def strLt (a b : String) : Prop := strLe a b ∧ a ≠ b

/-- Model of `df.groupby(key).size().to_dict()`: the distinct non-null keys in
ascending order, each with the number of rows carrying it.  Null keys
(rows where `key` is `none`) are dropped, as pandas `groupby` drops NaN
group keys. -/
def countBy {α : Type} (key : α → Option String) (rows : List α) : List (String × ℕ) :=
  let ks := rows.filterMap key
  (List.insertionSort strLe ks.dedup).map (fun k => (k, ks.count k))

/-- Model of `series.sort_values(ascending=False)`: pandas `nargsort`
reverses the values, takes an ascending argsort with the default
`kind='quicksort'` (numpy introsort), and reverses the resulting indexer.
Numpy's quicksort is documented as *not* stable, so the relative order of
equal values in the program's output is unspecified (it is only
incidentally stable, below introsort's insertion-sort threshold of about
16 elements).  The embedding must fix some deterministic sort and uses a
stable one; consequently no claim theorem relies on the tie order
produced by this definition — only on it being a descending sort of the
unchanged input series. -/
def sort_values_desc (l : List (String × ℕ)) : List (String × ℕ) :=
  (List.insertionSort (fun a b => a.2 ≤ b.2) l.reverse).reverse

/-- One entry of the `high_risk_assets` list built by
`analyze_risk_patterns`. -/
structure HighRiskEntry where
  code : String
  name : String
  type : String
  incident_count : ℕ
  criticality : String
deriving DecidableEq

/-- Model of `self.assets[self.assets['code'] == asset_code].iloc[0]`: first
asset-registry row with the given code (`none` when there is none; the
source would raise there, which cannot happen for codes produced by the
join). -/
def lookupAsset (assets : List Asset) (c : String) : Option Asset :=
  (assets.filter (fun a => a.code = c)).head?

/-- The dictionary returned by `AssetImpactAnalyzer.analyze_risk_patterns`.
The two cost totals are `Option`-valued because the degenerate (empty)
branch of the source returns a dictionary without those two keys. -/
structure RiskAnalysis where
  total_incidents : ℕ
  unique_assets : ℕ
  by_asset_type : List (String × ℕ)
  by_criticality : List (String × ℕ)
  by_damage_severity : List (String × ℕ)
  high_risk_assets : List HighRiskEntry
  total_estimated_cost : Option ℚ
  total_downtime_hours : Option ℚ
deriving DecidableEq

/-- Model of `AssetImpactAnalyzer.analyze_risk_patterns`.  `unique_assets` is
pandas `nunique`, which ignores nulls; the groupbys drop null keys; the
`high_risk_assets` list is the top 10 of the per-code incident counts
sorted descending. -/
def analyze_risk_patterns (assets : List Asset) (merged : List MergedRow) : RiskAnalysis :=
  if merged.length = 0 then
    { total_incidents := 0, unique_assets := 0, by_asset_type := [],
      by_criticality := [], by_damage_severity := [], high_risk_assets := [],
      total_estimated_cost := none, total_downtime_hours := none }
  else
    { total_incidents := merged.length
      unique_assets := (merged.filterMap (fun r => r.2.map (fun a => a.code))).dedup.length
      by_asset_type := countBy (fun r => r.2.map (fun a => a.type)) merged
      by_criticality := countBy (fun r => r.2.map (fun a => a.criticality)) merged
      by_damage_severity := countBy (fun r => some r.1.damage_severity) merged
      high_risk_assets :=
        ((sort_values_desc (countBy (fun r => r.2.map (fun a => a.code)) merged)).take 10).filterMap
          (fun p => (lookupAsset assets p.1).map (fun a =>
            { code := p.1, name := a.name, type := a.type,
              incident_count := p.2, criticality := a.criticality }))
      total_estimated_cost := some ((merged.map (fun r => r.1.repair_cost_usd)).sum)
      total_downtime_hours := some ((merged.map (fun r => r.1.downtime_hours)).sum) }

/-- The criticality-weight dictionary of `predict_at_risk_assets`, with
default `1.0` for unrecognized labels. -/
def criticality_weight (c : String) : ℚ :=
  if c = "Critical" then 1.5
  else if c = "High" then 1.2
  else if c = "Medium" then 1.0
  else if c = "Low" then 0.8
  else 1.0

/-- Python `round(x, 2)` modelled as rounding `100 x` to the nearest
integer (the claims never sit on an exact half-way tie, where Python's
float rounding is to even). -/
def round2 (x : ℚ) : ℚ := ((⌊x * 100 + 1 / 2⌋ : ℤ) : ℚ) / 100

/-- Python `round(x, 1)`, used for the reported `age_years`. -/
def round1 (x : ℚ) : ℚ := ((⌊x * 10 + 1 / 2⌋ : ℤ) : ℚ) / 10

/-- One output record of `predict_at_risk_assets`. -/
structure RiskEntry where
  code : String
  name : String
  type : String
  category : String
  risk_score : ℚ
  criticality : String
  condition_score : ℚ
  age_years : ℚ
  installation_date : ℤ
  historical_incident_count : ℕ
deriving DecidableEq

/-- The per-asset record built inside the loop of
`predict_at_risk_assets`, for historical incident count
`incident_count` of the asset's type, at current day number `now`
(`datetime.now()` is modelled by passing the current day explicitly). -/
def mkRiskEntry (incident_count : ℕ) (now : ℤ) (a : Asset) : RiskEntry :=
  let age_years : ℚ := ((now - a.installation_date : ℤ) : ℚ) / 365.25
  let condition_risk : ℚ := (10 - a.condition_score) / 10
  let age_risk : ℚ := min (age_years / 30) 1
  let risk_score : ℚ :=
    (incident_count : ℚ) * 0.4 + condition_risk * 30 * 0.3 +
      age_risk * 30 * 0.2 + criticality_weight a.criticality * 10 * 0.1
  { code := a.code, name := a.name, type := a.type, category := a.category,
    risk_score := round2 risk_score, criticality := a.criticality,
    condition_score := a.condition_score, age_years := round1 age_years,
    installation_date := a.installation_date,
    historical_incident_count := incident_count }

/-- Model of `AssetImpactAnalyzer.predict_at_risk_assets`: for every key of the
by-asset-type breakdown, score every registry asset of that type, then
sort the records by risk score descending (Python's stable
`sort(..., reverse=True)` keeps ties in original order). -/
def predict_at_risk_assets (ra : RiskAnalysis) (assets : List Asset) (now : ℤ) : List RiskEntry :=
  List.insertionSort (fun a b => b.risk_score ≤ a.risk_score)
    ((ra.by_asset_type.map (fun p =>
      (assets.filter (fun a => a.type = p.1)).map (mkRiskEntry p.2 now))).flatten)

/-- Risk-score formula written from the specification's words (§4.4):
`age_years = (now - installation_date) in days / 365.25`,
`age_risk = min(age_years / 30, 1.0)`,
`condition_risk = (10 - condition_score) / 10`,
`criticality_weight = {Critical: 1.5, High: 1.2, Medium: 1.0, Low: 0.8}`
with default `1.0`, and
`risk_score = incident_count * 0.4 + condition_risk * 30 * 0.3 +
age_risk * 30 * 0.2 + criticality_weight * 10 * 0.1`. -/
def specRiskScore (incident_count : ℕ) (a : Asset) (now : ℤ) : ℚ :=
  let age_years : ℚ := ((now - a.installation_date : ℤ) : ℚ) / 365.25
  let age_risk : ℚ := min (age_years / 30) 1
  let condition_risk : ℚ := (10 - a.condition_score) / 10
  (incident_count : ℚ) * 0.4 + condition_risk * 30 * 0.3 +
    age_risk * 30 * 0.2 + criticality_weight a.criticality * 10 * 0.1

/-- Shift an asset's installation date by `d` days (used to state how the
prediction depends on time). -/
def shiftInstall (d : ℤ) (a : Asset) : Asset :=
  { a with installation_date := a.installation_date + d }

/-- Forget the `installation_date` column of an output record (the only
output column that is not a function of the asset's age in days). -/
def eraseInstall (e : RiskEntry) : RiskEntry :=
  { e with installation_date := 0 }

/-- Count recorded for key `k` in a groupby dictionary (`0` when the key
is absent). -/
def groupCount (g : List (String × ℕ)) (k : String) : ℕ :=
  ((g.find? (fun p => p.1 == k)).map (fun p => p.2)).getD 0

/-- Inserting `x` into a list that is pairwise lexicographically ordered
(by `key`, with ties ordered by the auxiliary relation `I`) keeps that
order, provided `x` is `I`-before every element of the list.  This is the
heart of the stability argument for `insertionSort`. -/
theorem orderedInsert_pairwise_lex {α γ : Type} [LinearOrder γ] (key : α → γ)
    (I : α → α → Prop) [DecidableRel (fun a b : α => key a ≤ key b)] (x : α) :
    ∀ l : List α,
      l.Pairwise (fun a b => key a < key b ∨ (key a = key b ∧ I a b)) →
      (∀ y ∈ l, I x y) →
      (List.orderedInsert (fun a b => key a ≤ key b) x l).Pairwise
        (fun a b => key a < key b ∨ (key a = key b ∧ I a b))
  | [], _, _ => by simp
  | y :: l, hp, hx => by
    rcases List.pairwise_cons.mp hp with ⟨hy, hl⟩
    by_cases hk : key x ≤ key y
    · rw [List.orderedInsert, if_pos hk]
      refine List.pairwise_cons.mpr ⟨?_, hp⟩
      intro z hz
      have hxz : I x z := hx z hz
      have hle : key x ≤ key z := by
        rcases List.mem_cons.mp hz with h | h
        · exact h ▸ hk
        · rcases hy z h with h2 | h2
          · exact le_trans hk h2.le
          · exact le_trans hk h2.1.le
      rcases lt_or_eq_of_le hle with h | h
      · exact Or.inl h
      · exact Or.inr ⟨h, hxz⟩
    · rw [List.orderedInsert, if_neg hk]
      refine List.pairwise_cons.mpr ⟨?_, ?_⟩
      · intro z hz
        rcases (List.mem_orderedInsert _).mp hz with h | h
        · exact Or.inl (h ▸ lt_of_not_le hk)
        · exact hy z h
      · exact orderedInsert_pairwise_lex key I x l hl (fun z hz => hx z (List.mem_cons_of_mem _ hz))

/-- A stable sort of a list whose elements are pairwise `I`-related (in
list order) is pairwise ordered lexicographically: ascending in `key`,
with ties still `I`-related in order — i.e. ties keep their original
relative order. -/
theorem insertionSort_pairwise_lex {α γ : Type} [LinearOrder γ] (key : α → γ)
    (I : α → α → Prop) [DecidableRel (fun a b : α => key a ≤ key b)] :
    ∀ l : List α, l.Pairwise I →
      (List.insertionSort (fun a b => key a ≤ key b) l).Pairwise
        (fun a b => key a < key b ∨ (key a = key b ∧ I a b))
  | [], _ => by simp
  | x :: l, hp => by
    rcases List.pairwise_cons.mp hp with ⟨hx, hl⟩
    rw [List.insertionSort]
    refine orderedInsert_pairwise_lex key I x _ (insertionSort_pairwise_lex key I l hl) ?_
    intro y hy
    exact hx y ((List.perm_insertionSort _ l).mem_iff.mp hy)

/-- `distancesFrom` produces one entry per row. -/
theorem distancesFrom_length (ev : List WeatherEvent) (q : QueryEvent) :
    ∀ (i : ℕ) (l : List WeatherEvent), (distancesFrom ev q i l).length = l.length
  | _, [] => rfl
  | i, _ :: rest => by
    simp [distancesFrom, distancesFrom_length ev q (i + 1) rest]

/-- Every tag produced by `distancesFrom i l` is at least `i`. -/
theorem distancesFrom_le_tag (ev : List WeatherEvent) (q : QueryEvent) :
    ∀ (i : ℕ) (l : List WeatherEvent), ∀ t ∈ distancesFrom ev q i l, i ≤ t.1
  | _, [], _, ht => by simp [distancesFrom] at ht
  | i, e :: rest, t, ht => by
    rcases List.mem_cons.mp ht with h | h
    · rw [h]
    · exact le_trans (Nat.le_succ i) (distancesFrom_le_tag ev q (i + 1) rest t h)

/-- The tags of `distancesFrom` are strictly increasing in list order. -/
theorem distancesFrom_pairwise (ev : List WeatherEvent) (q : QueryEvent) :
    ∀ (i : ℕ) (l : List WeatherEvent),
      (distancesFrom ev q i l).Pairwise (fun a b => a.1 < b.1)
  | _, [] => List.Pairwise.nil
  | i, e :: rest => by
    refine List.pairwise_cons.mpr ⟨?_, distancesFrom_pairwise ev q (i + 1) rest⟩
    intro t ht
    exact lt_of_lt_of_le (Nat.lt_succ_self i) (distancesFrom_le_tag ev q (i + 1) rest t ht)

/-- Every entry of `distancesFrom` is the identifier and squared distance
of some row of the collection. -/
theorem distancesFrom_mem (ev : List WeatherEvent) (q : QueryEvent) :
    ∀ (i : ℕ) (l : List WeatherEvent), ∀ t ∈ distancesFrom ev q i l,
      ∃ e ∈ l, t.2.1 = e.event_id ∧ t.2.2 = sqDist ev q e
  | _, [], _, ht => by simp [distancesFrom] at ht
  | i, e :: rest, t, ht => by
    rcases List.mem_cons.mp ht with h | h
    · exact ⟨e, List.mem_cons_self e rest, by rw [h], by rw [h]⟩
    · rcases distancesFrom_mem ev q (i + 1) rest t h with ⟨e', he', h1, h2⟩
      exact ⟨e', List.mem_cons_of_mem e he', h1, h2⟩

/-- The pandas (sample) variance is nonnegative. -/
theorem featVar_nonneg (ev : List WeatherEvent) (f : Feature) : 0 ≤ featVar ev f := by
  apply div_nonneg
  · apply List.sum_nonneg
    intro x hx
    rcases List.mem_map.mp hx with ⟨e, _, he⟩
    exact he ▸ sq_nonneg _
  · exact_mod_cast Nat.zero_le _

/-- The stored standard deviation is positive exactly when the (sample)
variance is. -/
theorem featStd_pos_iff (ev : List WeatherEvent) (f : Feature) :
    0 < featStd ev f ↔ 0 < featVar ev f := by
  rw [featStd, Real.sqrt_pos]
  exact_mod_cast Iff.rfl

/-- The stored standard deviation vanishes exactly when the (sample)
variance does. -/
theorem featStd_eq_zero_iff (ev : List WeatherEvent) (f : Feature) :
    featStd ev f = 0 ↔ featVar ev f = 0 := by
  rw [featStd, Real.sqrt_eq_zero (by exact_mod_cast featVar_nonneg ev f)]
  exact_mod_cast Iff.rfl

/-- Per-feature bridge: the squared difference of the two normalized
coordinates is exactly the rational quantity summed by `sqDist`. -/
theorem normalized_diff_sq (ev : List WeatherEvent) (f : Feature) (x y : ℚ) :
    (normalizedFeature ev f x - normalizedFeature ev f y) ^ 2 =
      ((if 0 < featVar ev f then (x - y) ^ 2 / featVar ev f else 0 : ℚ) : ℝ) := by
  by_cases h : 0 < featVar ev f
  · have hs : 0 < featStd ev f := (featStd_pos_iff ev f).mpr h
    rw [normalizedFeature, normalizedFeature, if_pos hs, if_pos hs, if_pos h]
    rw [div_sub_div_same, div_pow]
    have hsq : featStd ev f ^ 2 = ((featVar ev f : ℚ) : ℝ) :=
      Real.sq_sqrt (by exact_mod_cast featVar_nonneg ev f)
    rw [hsq]
    push_cast
    ring
  · have hs : ¬ 0 < featStd ev f := fun hc => h ((featStd_pos_iff ev f).mp hc)
    rw [normalizedFeature, normalizedFeature, if_neg hs, if_neg hs, if_neg h]
    simp

/-- The squared distance carried by the pipeline is the sum of squared
differences of the normalized coordinates: its square root is the
Euclidean distance between the normalized query vector and the normalized
historical vector. -/
theorem sqDist_eq_normalized (ev : List WeatherEvent) (q : QueryEvent) (e : WeatherEvent) :
    ((sqDist ev q e : ℚ) : ℝ) =
      ((featureColumns.map (fun f =>
        (normalizedFeature ev f (queryVal q f) - normalizedFeature ev f (featVal e f)) ^ 2)).sum) := by
  simp only [sqDist, featureColumns, List.map_cons, List.map_nil, List.sum_cons, List.sum_nil,
    normalized_diff_sq]
  push_cast
  ring

/-- Each squared distance is nonnegative. -/
theorem sqDist_nonneg (ev : List WeatherEvent) (q : QueryEvent) (e : WeatherEvent) :
    0 ≤ sqDist ev q e := by
  apply List.sum_nonneg
  intro x hx
  rcases List.mem_map.mp hx with ⟨f, _, hf⟩
  subst hf
  by_cases h : 0 < featVar ev f
  · rw [if_pos h]
    exact div_nonneg (sq_nonneg _) (le_of_lt h)
  · rw [if_neg h]

/-- C1: for every loaded historical collection and every query event,
`find_similar_events` returns exactly `min k n` pairs; the pairs are in
non-decreasing order of Euclidean distance (the square root of the
carried squared distance) in the normalized 5-dimensional feature space;
ties in distance keep the original row order (stable sort, stated on the
row-index tags of `sortedDistances`, of which the result is the untagged
image); every carried distance is the squared Euclidean norm of the
difference of normalized vectors of the query and some historical row;
and an empty collection yields an empty result. -/
theorem C1_find_similar_events (k : ℕ) (ev : List WeatherEvent) (q : QueryEvent) :
    (find_similar_events k ev q).length = min k ev.length
    ∧ (find_similar_events k ev q).Pairwise
        (fun p r => Real.sqrt ((p.2 : ℚ) : ℝ) ≤ Real.sqrt ((r.2 : ℚ) : ℝ))
    ∧ ((sortedDistances ev q).take k).Pairwise
        (fun a b => a.2.2 = b.2.2 → a.1 < b.1)
    ∧ find_similar_events k ev q = ((sortedDistances ev q).take k).map (fun t => (t.2.1, t.2.2))
    ∧ (∀ t ∈ sortedDistances ev q, ∃ e ∈ ev, t.2.1 = e.event_id ∧
        ((t.2.2 : ℚ) : ℝ) = (featureColumns.map (fun f =>
          (normalizedFeature ev f (queryVal q f) - normalizedFeature ev f (featVal e f)) ^ 2)).sum)
    ∧ (ev = [] → find_similar_events k ev q = []) := by
  have hperm : (sortedDistances ev q).Perm (distancesList ev q) :=
    List.perm_insertionSort (fun a b : ℕ × ℕ × ℚ => a.2.2 ≤ b.2.2) (distancesList ev q)
  have hlex :
      (sortedDistances ev q).Pairwise
        (fun a b : ℕ × ℕ × ℚ => a.2.2 < b.2.2 ∨ (a.2.2 = b.2.2 ∧ a.1 < b.1)) :=
    insertionSort_pairwise_lex (fun t : ℕ × ℕ × ℚ => t.2.2) (fun a b => a.1 < b.1)
      (distancesList ev q) (distancesFrom_pairwise ev q 0 ev)
  refine ⟨?_, ?_, ?_, rfl, ?_, ?_⟩
  · simp only [find_similar_events, List.length_map, List.length_take, hperm.length_eq,
      distancesList, distancesFrom_length]
  · rw [find_similar_events]
    rw [List.pairwise_map]
    refine List.Pairwise.sublist (List.take_sublist k _) (hlex.imp ?_)
    intro a b hab
    rcases hab with h | h
    · exact Real.sqrt_le_sqrt (by exact_mod_cast le_of_lt h)
    · exact le_of_eq (by rw [h.1])
  · refine List.Pairwise.sublist (List.take_sublist k _) (hlex.imp ?_)
    intro a b hab heq
    rcases hab with h | h
    · exact absurd heq (ne_of_lt h)
    · exact h.2
  · intro t ht
    rcases distancesFrom_mem ev q 0 ev t (hperm.mem_iff.mp ht) with ⟨e, he, h1, h2⟩
    exact ⟨e, he, h1, by rw [h2]; exact sqDist_eq_normalized ev q e⟩
  · intro h
    subst h
    simp [find_similar_events, sortedDistances, distancesList, distancesFrom]

/-- Witness for C1: concrete instances of the guarded conjuncts — the
empty collection yields the empty result, and on a singleton collection
the result length is `min k 1`. -/
theorem C1_find_similar_events_witness :
    find_similar_events 3 [] ⟨1, 2, 3, 4, 5⟩ = []
    ∧ (find_similar_events 3 [⟨7, 1, 2, 3, 4, 5⟩] ⟨1, 2, 3, 4, 5⟩).length = min 3 1 :=
  ⟨(C1_find_similar_events 3 [] ⟨1, 2, 3, 4, 5⟩).2.2.2.2.2 rfl,
   (C1_find_similar_events 3 [⟨7, 1, 2, 3, 4, 5⟩] ⟨1, 2, 3, 4, 5⟩).1⟩

/-- C4: when the stored standard deviation of a feature is zero, the
z-score normalization of that feature yields the value `0` for every
historical record and for every query event (never an undefined value and
never a division by zero, since the division branch is guarded by
`std > 0`). -/
theorem C4_zero_std_normalization (ev : List WeatherEvent) (f : Feature)
    (h : featStd ev f = 0) :
    (∀ x : ℚ, normalizedFeature ev f x = 0)
    ∧ (∀ e ∈ ev, normalizedFeature ev f (featVal e f) = 0)
    ∧ (∀ q : QueryEvent, normalizedFeature ev f (queryVal q f) = 0) := by
  have hn : ∀ x : ℚ, normalizedFeature ev f x = 0 := by
    intro x
    rw [normalizedFeature, if_neg]
    rw [h]
    exact lt_irrefl 0
  exact ⟨hn, fun e _ => hn _, fun q => hn _⟩

/-- Witness for C4: a two-row collection whose temperature column is
constant has standard deviation zero, and the normalization of a query
temperature is `0`. -/
theorem C4_zero_std_normalization_witness :
    featStd [⟨1, 10, 20, 30, 40, 50⟩, ⟨2, 10, 21, 31, 41, 51⟩] Feature.temperature_c = 0
    ∧ normalizedFeature [⟨1, 10, 20, 30, 40, 50⟩, ⟨2, 10, 21, 31, 41, 51⟩]
        Feature.temperature_c 99 = 0 := by
  have hv : featVar [⟨1, 10, 20, 30, 40, 50⟩, ⟨2, 10, 21, 31, 41, 51⟩] Feature.temperature_c = 0 := by
    norm_num [featVar, featMean, featVal]
  have hs : featStd [⟨1, 10, 20, 30, 40, 50⟩, ⟨2, 10, 21, 31, 41, 51⟩] Feature.temperature_c = 0 := by
    rw [featStd, hv]
    norm_num
  exact ⟨hs, (C4_zero_std_normalization _ _ hs).1 99⟩

/-- C9 (counterexample): on the two-row collection with temperatures
`0` and `2`, the standard deviation stored for normalization (pandas
sample standard deviation, `sqrt 2`) differs from the population standard
deviation (`1`), refuting the claim that the divisor is `n`. -/
theorem C9_counterexample :
    featStd [⟨1, 0, 0, 0, 0, 0⟩, ⟨2, 2, 0, 0, 0, 0⟩] Feature.temperature_c
      ≠ popStd [⟨1, 0, 0, 0, 0, 0⟩, ⟨2, 2, 0, 0, 0, 0⟩] Feature.temperature_c := by
  have h1 : featVar [⟨1, 0, 0, 0, 0, 0⟩, ⟨2, 2, 0, 0, 0, 0⟩] Feature.temperature_c = 2 := by
    norm_num [featVar, featMean, featVal]
  have h2 : populationVariance [⟨1, 0, 0, 0, 0, 0⟩, ⟨2, 2, 0, 0, 0, 0⟩] Feature.temperature_c = 1 := by
    norm_num [populationVariance, featMean, featVal]
  rw [featStd, popStd, h1, h2]
  intro h
  have h3 : ((2 : ℚ) : ℝ) = ((1 : ℚ) : ℝ) := by
    have h4 := congrArg (fun x => x ^ 2) h
    simp only [Real.sq_sqrt (by norm_num : (0:ℝ) ≤ ((2:ℚ):ℝ)),
      Real.sq_sqrt (by norm_num : (0:ℝ) ≤ ((1:ℚ):ℝ))] at h4
    exact h4
  norm_num at h3

/-- C9 (amended): the standard deviation computed at load time is the
*sample* standard deviation (pandas default `ddof = 1`): for collections
with at least two rows, the stored variance satisfies
`featVar * (n - 1) = populationVariance * n`. -/
theorem C9_sample_std (ev : List WeatherEvent) (f : Feature) (h : 2 ≤ ev.length) :
    featVar ev f * ((ev.length : ℚ) - 1) = populationVariance ev f * (ev.length : ℚ) := by
  have h1 : 1 ≤ ev.length := le_trans one_le_two h
  have hn : (ev.length : ℚ) ≠ 0 := by
    have : 0 < ev.length := lt_of_lt_of_le two_pos h
    exact_mod_cast Nat.pos_iff_ne_zero.mp this
  have hn1 : ((ev.length - 1 : ℕ) : ℚ) = (ev.length : ℚ) - 1 := by
    push_cast [Nat.cast_sub h1]
    ring
  have hn1' : (ev.length : ℚ) - 1 ≠ 0 := by
    have h2 : (2 : ℚ) ≤ (ev.length : ℚ) := by exact_mod_cast h
    intro hc
    rw [sub_eq_zero] at hc
    rw [hc] at h2
    norm_num at h2
  rw [featVar, populationVariance, hn1, div_mul_cancel₀ _ hn1', div_mul_cancel₀ _ hn]

/-- Witness for C9 (amended): the relation between the two variances on a
concrete two-row collection (`2 * (2 - 1) = 1 * 2`). -/
theorem C9_sample_std_witness :
    2 ≤ ([⟨1, 0, 0, 0, 0, 0⟩, ⟨2, 2, 0, 0, 0, 0⟩] : List WeatherEvent).length
    ∧ featVar [⟨1, 0, 0, 0, 0, 0⟩, ⟨2, 2, 0, 0, 0, 0⟩] Feature.temperature_c
        * ((([⟨1, 0, 0, 0, 0, 0⟩, ⟨2, 2, 0, 0, 0, 0⟩] : List WeatherEvent).length : ℚ) - 1)
      = populationVariance [⟨1, 0, 0, 0, 0, 0⟩, ⟨2, 2, 0, 0, 0, 0⟩] Feature.temperature_c
        * (([⟨1, 0, 0, 0, 0, 0⟩, ⟨2, 2, 0, 0, 0, 0⟩] : List WeatherEvent).length : ℚ) :=
  ⟨by norm_num, C9_sample_std [⟨1, 0, 0, 0, 0, 0⟩, ⟨2, 2, 0, 0, 0, 0⟩] Feature.temperature_c (by norm_num)⟩

/-- Looking up the identifier of a member of a collection with pairwise
distinct identifiers returns exactly that member. -/
theorem get_event_details_of_mem :
    ∀ (ev : List WeatherEvent), (ev.map (fun e => e.event_id)).Nodup →
      ∀ e ∈ ev, get_event_details ev e.event_id = some e
  | [], _, e, he => absurd he (List.not_mem_nil e)
  | x :: l, hnd, e, he => by
    rw [List.map_cons, List.nodup_cons] at hnd
    rcases List.mem_cons.mp he with rfl | he'
    · rw [get_event_details, List.filter_cons_of_pos (by simp)]
      rfl
    · have hx : ¬ (x.event_id = e.event_id) := by
        intro hc
        exact hnd.1 (hc ▸ List.mem_map_of_mem (fun e' => e'.event_id) he')
      rw [get_event_details, List.filter_cons_of_neg (by simpa using hx)]
      exact get_event_details_of_mem l hnd.2 e he'

/-- A lookup succeeds whenever some row carries the identifier. -/
theorem get_event_details_isSome (ev : List WeatherEvent) (eid : ℕ)
    (h : ∃ e ∈ ev, e.event_id = eid) : (get_event_details ev eid).isSome = true := by
  rcases h with ⟨e, he, heq⟩
  have hmem : e ∈ ev.filter (fun e' => e'.event_id = eid) :=
    List.mem_filter.mpr ⟨he, by simp [heq]⟩
  rw [get_event_details]
  cases hf : ev.filter (fun e' => e'.event_id = eid) with
  | nil => rw [hf] at hmem; cases hmem
  | cons a l => rfl

/-- C7: on a collection with distinct identifiers, looking up the
identifier of a loaded event returns that event's full record; looking up
an identifier carried by no event returns the failure value `none`
(`.iloc[0]` raises on the empty selection — no silent default); and the
lookup of any identifier returned by `find_similar_events` always
succeeds. -/
theorem C7_event_lookup (ev : List WeatherEvent) (eid k : ℕ) (q : QueryEvent) :
    ((ev.map (fun e => e.event_id)).Nodup →
      ∀ e ∈ ev, get_event_details ev e.event_id = some e)
    ∧ ((∀ e ∈ ev, e.event_id ≠ eid) → get_event_details ev eid = none)
    ∧ (∀ p ∈ find_similar_events k ev q, (get_event_details ev p.1).isSome = true) := by
  refine ⟨fun hnd e he => get_event_details_of_mem ev hnd e he, ?_, ?_⟩
  · intro h
    rw [get_event_details]
    have : ev.filter (fun e' => e'.event_id = eid) = [] := by
      rw [List.filter_eq_nil_iff]
      intro e he
      simpa using h e he
    rw [this]
    rfl
  · intro p hp
    rw [find_similar_events] at hp
    rcases List.mem_map.mp hp with ⟨t, ht, rfl⟩
    have ht' : t ∈ sortedDistances ev q := List.mem_of_mem_take ht
    have ht'' : t ∈ distancesList ev q :=
      (List.perm_insertionSort (fun a b : ℕ × ℕ × ℚ => a.2.2 ≤ b.2.2) (distancesList ev q)).mem_iff.mp ht'
    rcases distancesFrom_mem ev q 0 ev t ht'' with ⟨e, he, h1, _⟩
    exact get_event_details_isSome ev t.2.1 ⟨e, he, h1.symm⟩

/-- Witness for C7: concrete lookups — a present identifier returns its
record, an absent identifier returns `none`, and the identifier of the
single pair returned by the search on a one-row collection is found. -/
theorem C7_event_lookup_witness :
    get_event_details [⟨1, 0, 0, 0, 0, 0⟩, ⟨2, 5, 5, 5, 5, 5⟩] 2 = some ⟨2, 5, 5, 5, 5, 5⟩
    ∧ get_event_details [⟨1, 0, 0, 0, 0, 0⟩, ⟨2, 5, 5, 5, 5, 5⟩] 9 = none
    ∧ (get_event_details [⟨7, 1, 2, 3, 4, 5⟩]
        ((7 : ℕ), sqDist [⟨7, 1, 2, 3, 4, 5⟩] ⟨1, 2, 3, 4, 5⟩ ⟨7, 1, 2, 3, 4, 5⟩).1).isSome = true := by
  refine ⟨?_, ?_, ?_⟩
  · exact (C7_event_lookup [⟨1, 0, 0, 0, 0, 0⟩, ⟨2, 5, 5, 5, 5, 5⟩] 0 0 ⟨0, 0, 0, 0, 0⟩).1
      (by decide) ⟨2, 5, 5, 5, 5, 5⟩ (by simp)
  · exact (C7_event_lookup [⟨1, 0, 0, 0, 0, 0⟩, ⟨2, 5, 5, 5, 5, 5⟩] 9 0 ⟨0, 0, 0, 0, 0⟩).2.1
      (by decide)
  · refine (C7_event_lookup [⟨7, 1, 2, 3, 4, 5⟩] 0 1 ⟨1, 2, 3, 4, 5⟩).2.2 _ ?_
    simp [find_similar_events, sortedDistances, distancesList, distancesFrom, List.insertionSort]

/-- C5: when the identifier set is empty or matches no incident, the
aggregation of `get_affected_assets` by `analyze_risk_patterns` returns
the zero-valued aggregate: zero incidents, zero distinct assets, all
group-by mappings empty and an empty frequently-affected list (and it is
a total function — no failure path). -/
theorem C5_degenerate_aggregate (assets : List Asset) (incidents : List Incident)
    (ids : List ℕ) (h : ∀ i ∈ incidents, i.event_id ∉ ids) :
    analyze_risk_patterns assets (get_affected_assets assets incidents ids)
      = { total_incidents := 0, unique_assets := 0, by_asset_type := [],
          by_criticality := [], by_damage_severity := [], high_risk_assets := [],
          total_estimated_cost := none, total_downtime_hours := none } := by
  have hf : incidents.filter (fun i => i.event_id ∈ ids) = [] := by
    rw [List.filter_eq_nil_iff]
    intro i hi
    simpa using h i hi
  rw [get_affected_assets, hf]
  rfl

/-- Witness for C5: a non-matching identifier set on a concrete incident
log yields the zero aggregate. -/
theorem C5_degenerate_aggregate_witness :
    analyze_risk_patterns [⟨"A", "a", "Pole", "El", "High", 5, 0⟩]
        (get_affected_assets [⟨"A", "a", "Pole", "El", "High", 5, 0⟩]
          [⟨1, "A", "Major", 5, 2⟩] [2, 3])
      = { total_incidents := 0, unique_assets := 0, by_asset_type := [],
          by_criticality := [], by_damage_severity := [], high_risk_assets := [],
          total_estimated_cost := none, total_downtime_hours := none } :=
  C5_degenerate_aggregate [⟨"A", "a", "Pole", "El", "High", 5, 0⟩]
    [⟨1, "A", "Major", 5, 2⟩] [2, 3] (by decide)

/-- Totality of the structural code-point comparison. -/
theorem charLe_total : ∀ as bs : List Char, charLe as bs = true ∨ charLe bs as = true
  | [], _ => Or.inl rfl
  | _ :: _, [] => Or.inr rfl
  | a :: as, b :: bs => by
    by_cases h1 : a < b
    · left
      simp only [charLe, if_pos h1]
    · by_cases h2 : b < a
      · right
        simp only [charLe, if_pos h2]
      · rcases charLe_total as bs with h | h
        · left
          simp only [charLe, if_neg h1, if_neg h2]
          exact h
        · right
          simp only [charLe, if_neg h2, if_neg h1]
          exact h

/-- Transitivity of the structural code-point comparison. -/
theorem charLe_trans : ∀ as bs cs : List Char,
    charLe as bs = true → charLe bs cs = true → charLe as cs = true
  | [], _, _, _, _ => rfl
  | _ :: _, [], _, hab, _ => by simp [charLe] at hab
  | _ :: _, _ :: _, [], _, hbc => by simp [charLe] at hbc
  | a :: as, b :: bs, c :: cs, hab, hbc => by
    simp only [charLe] at hab hbc ⊢
    by_cases h1 : a < b
    · by_cases h2 : b < c
      · rw [if_pos (lt_trans h1 h2)]
      · by_cases h3 : c < b
        · rw [if_neg h2, if_pos h3] at hbc
          exact absurd hbc (by simp)
        · have hbc' : b = c := le_antisymm (le_of_not_lt h3) (le_of_not_lt h2)
          subst hbc'
          rw [if_pos h1]
    · by_cases h4 : b < a
      · rw [if_neg h1, if_pos h4] at hab
        exact absurd hab (by simp)
      · have hab' : a = b := le_antisymm (le_of_not_lt h4) (le_of_not_lt h1)
        subst hab'
        by_cases h2 : a < c
        · rw [if_pos h2]
        · by_cases h3 : c < a
          · rw [if_neg h2, if_pos h3] at hbc
            exact absurd hbc (by simp)
          · rw [if_neg h2, if_neg h3]
            rw [if_neg h1, if_neg h4] at hab
            rw [if_neg h2, if_neg h3] at hbc
            exact charLe_trans as bs cs hab hbc

instance : IsTotal String strLe := ⟨fun a b => charLe_total a.data b.data⟩

instance : IsTrans String strLe :=
  ⟨fun a b c hab hbc => charLe_trans a.data b.data c.data hab hbc⟩

/-- The groupby dictionary produced by `countBy` has its keys in strictly
ascending code-point order. -/
theorem countBy_pairwise {α : Type} (key : α → Option String) (rows : List α) :
    (countBy key rows).Pairwise (fun p q => strLt p.1 q.1) := by
  rw [countBy]
  rw [List.pairwise_map]
  have hs : (List.insertionSort strLe (rows.filterMap key).dedup).Pairwise strLe :=
    List.sorted_insertionSort strLe _
  have hnd : (List.insertionSort strLe (rows.filterMap key).dedup).Pairwise (fun a b => a ≠ b) :=
    (List.perm_insertionSort strLe _).nodup_iff.mpr (List.nodup_dedup _)
  exact (hs.and hnd).imp (fun h => ⟨h.1, h.2⟩)

/-- Appending one incident that matches the identifier set but no asset
code appends exactly one null-filled row to the join. -/
theorem get_affected_append_unmatched (assets : List Asset) (incidents : List Incident)
    (ids : List ℕ) (inc : Incident) (h1 : inc.event_id ∈ ids)
    (h2 : ∀ a ∈ assets, a.code ≠ inc.asset_code) :
    get_affected_assets assets (incidents ++ [inc]) ids
      = get_affected_assets assets incidents ids ++ [(inc, none)] := by
  rw [get_affected_assets, get_affected_assets, List.filter_append, List.map_append,
    List.flatten_append]
  congr 1
  have hmatch : assets.filter (fun a => a.code = inc.asset_code) = [] := by
    rw [List.filter_eq_nil_iff]
    intro a ha
    simpa using h2 a ha
  rw [List.filter_cons_of_pos (by simpa using h1)]
  simp only [List.filter_nil, List.map_cons, List.map_nil, List.flatten_cons, List.flatten_nil,
    List.append_nil]
  rw [hmatch]
  simp

/-- Appending a row whose key is `none` leaves a groupby dictionary
unchanged. -/
theorem countBy_append_none {α : Type} (key : α → Option String) (l : List α) (x : α)
    (hx : key x = none) : countBy key (l ++ [x]) = countBy key l := by
  rw [countBy, countBy, List.filterMap_append]
  simp [hx]

/-- The count recorded in a groupby dictionary for a key is the number of
rows carrying that key. -/
theorem find?_pair_map (c : String → ℕ) (s : String) :
    ∀ m : List String,
      (((m.map (fun k => (k, c k))).find? (fun p => p.1 == s)).map (fun p => p.2))
        = if s ∈ m then some (c s) else none
  | [] => by simp
  | k :: m => by
    by_cases h : k = s
    · subst h
      simp [List.find?]
    · have hne : (k == s) = false := by simpa using h
      rw [List.map_cons, List.find?]
      simp only [hne]
      rw [find?_pair_map c s m]
      by_cases hm : s ∈ m
      · rw [if_pos hm, if_pos (List.mem_cons_of_mem k hm)]
      · rw [if_neg hm,
          if_neg (fun hc => (List.mem_cons.mp hc).elim (fun he => h he.symm) hm)]

/-- `groupCount` of a `countBy` dictionary is the raw count of the key
among the (non-null) keys of the rows. -/
theorem groupCount_countBy {α : Type} (key : α → Option String) (rows : List α) (s : String) :
    groupCount (countBy key rows) s = (rows.filterMap key).count s := by
  rw [countBy, groupCount]
  rw [find?_pair_map (fun k => (rows.filterMap key).count k) s]
  by_cases h : s ∈ List.insertionSort strLe (rows.filterMap key).dedup
  · rw [if_pos h]
    rfl
  · rw [if_neg h]
    have : s ∉ rows.filterMap key := by
      intro hc
      exact h (((List.perm_insertionSort strLe _).mem_iff).mpr (List.mem_dedup.mpr hc))
    rw [Option.getD_none, List.count_eq_zero.mpr this]

/-- C10: an incident that matches the identifier set but references an
unknown asset code is kept by the left join as a null-filled row, and the
aggregation then counts it in `total_incidents`, in the damage-severity
grouping and in both cost totals, while silently excluding it from the
by-asset-type and by-criticality groupings, from the distinct-asset count
and from the frequently-affected list (its null group keys are dropped).
Stated by comparing the aggregate with and without the unmatched
incident. -/
theorem C10_unmatched_incident (assets : List Asset) (incidents : List Incident)
    (ids : List ℕ) (inc : Incident) (h1 : inc.event_id ∈ ids)
    (h2 : ∀ a ∈ assets, a.code ≠ inc.asset_code)
    (h3 : get_affected_assets assets incidents ids ≠ []) :
    (analyze_risk_patterns assets (get_affected_assets assets (incidents ++ [inc]) ids)).total_incidents
      = (analyze_risk_patterns assets (get_affected_assets assets incidents ids)).total_incidents + 1
    ∧ groupCount (analyze_risk_patterns assets
          (get_affected_assets assets (incidents ++ [inc]) ids)).by_damage_severity
          inc.damage_severity
      = groupCount (analyze_risk_patterns assets
          (get_affected_assets assets incidents ids)).by_damage_severity inc.damage_severity + 1
    ∧ (analyze_risk_patterns assets (get_affected_assets assets (incidents ++ [inc]) ids)).total_estimated_cost
      = (analyze_risk_patterns assets (get_affected_assets assets incidents ids)).total_estimated_cost.map
          (fun c => c + inc.repair_cost_usd)
    ∧ (analyze_risk_patterns assets (get_affected_assets assets (incidents ++ [inc]) ids)).total_downtime_hours
      = (analyze_risk_patterns assets (get_affected_assets assets incidents ids)).total_downtime_hours.map
          (fun c => c + inc.downtime_hours)
    ∧ (analyze_risk_patterns assets (get_affected_assets assets (incidents ++ [inc]) ids)).by_asset_type
      = (analyze_risk_patterns assets (get_affected_assets assets incidents ids)).by_asset_type
    ∧ (analyze_risk_patterns assets (get_affected_assets assets (incidents ++ [inc]) ids)).by_criticality
      = (analyze_risk_patterns assets (get_affected_assets assets incidents ids)).by_criticality
    ∧ (analyze_risk_patterns assets (get_affected_assets assets (incidents ++ [inc]) ids)).unique_assets
      = (analyze_risk_patterns assets (get_affected_assets assets incidents ids)).unique_assets
    ∧ (analyze_risk_patterns assets (get_affected_assets assets (incidents ++ [inc]) ids)).high_risk_assets
      = (analyze_risk_patterns assets (get_affected_assets assets incidents ids)).high_risk_assets := by
  rw [get_affected_append_unmatched assets incidents ids inc h1 h2]
  set M := get_affected_assets assets incidents ids with hMdef
  have hlen : ¬ M.length = 0 := fun hc => h3 (List.length_eq_zero.mp hc)
  have hlen' : ¬ (M ++ [((inc : Incident), (none : Option Asset))]).length = 0 := by
    simp
  simp only [analyze_risk_patterns]
  rw [if_neg hlen', if_neg hlen]
  dsimp only
  refine ⟨by simp, ?_, by simp, by simp, ?_, ?_, ?_, ?_⟩
  · rw [groupCount_countBy, groupCount_countBy, List.filterMap_append]
    simp [List.count_append, List.count_cons]
  · exact countBy_append_none _ M _ rfl
  · exact countBy_append_none _ M _ rfl
  · rw [List.filterMap_append]
    simp
  · rw [countBy_append_none _ M _ rfl]

/-- Witness for C10: a matching incident with the unknown code `"Z"`,
next to one matched incident, on a one-asset registry. -/
theorem C10_unmatched_incident_witness :
    (analyze_risk_patterns [⟨"A", "a", "Pole", "El", "High", 5, 0⟩]
        (get_affected_assets [⟨"A", "a", "Pole", "El", "High", 5, 0⟩]
          ([⟨1, "A", "Major", 5, 2⟩] ++ [⟨1, "Z", "Minor", 7, 3⟩]) [1])).total_incidents
      = (analyze_risk_patterns [⟨"A", "a", "Pole", "El", "High", 5, 0⟩]
          (get_affected_assets [⟨"A", "a", "Pole", "El", "High", 5, 0⟩]
            [⟨1, "A", "Major", 5, 2⟩] [1])).total_incidents + 1
    ∧ (analyze_risk_patterns [⟨"A", "a", "Pole", "El", "High", 5, 0⟩]
        (get_affected_assets [⟨"A", "a", "Pole", "El", "High", 5, 0⟩]
          ([⟨1, "A", "Major", 5, 2⟩] ++ [⟨1, "Z", "Minor", 7, 3⟩]) [1])).by_asset_type
      = (analyze_risk_patterns [⟨"A", "a", "Pole", "El", "High", 5, 0⟩]
          (get_affected_assets [⟨"A", "a", "Pole", "El", "High", 5, 0⟩]
            [⟨1, "A", "Major", 5, 2⟩] [1])).by_asset_type := by
  have h := C10_unmatched_incident [⟨"A", "a", "Pole", "El", "High", 5, 0⟩]
    [⟨1, "A", "Major", 5, 2⟩] [1] ⟨1, "Z", "Minor", 7, 3⟩ (by decide) (by decide) (by decide)
  exact ⟨h.1, h.2.2.2.2.1⟩

/-- C2: every record produced by `predict_at_risk_assets` carries the
risk score prescribed by the specification formula (weighted sum of
historical incident count of the asset's type, condition risk, capped age
risk with `age_years = age_days / 365.25`, and the criticality weight
with default `1.0`), rounded to two decimal digits. -/
theorem C2_risk_score_formula (ra : RiskAnalysis) (assets : List Asset) (now : ℤ)
    (e : RiskEntry) (he : e ∈ predict_at_risk_assets ra assets now) :
    ∃ p ∈ ra.by_asset_type, ∃ a ∈ assets, a.type = p.1 ∧ e.code = a.code
      ∧ e.risk_score = round2 (specRiskScore p.2 a now) := by
  rw [predict_at_risk_assets] at he
  have he' := (List.perm_insertionSort
    (fun a b : RiskEntry => b.risk_score ≤ a.risk_score) _).mem_iff.mp he
  rcases List.mem_flatten.mp he' with ⟨L, hL, heL⟩
  rcases List.mem_map.mp hL with ⟨p, hp, rfl⟩
  rcases List.mem_map.mp heL with ⟨a, ha, rfl⟩
  have ha' := List.mem_filter.mp ha
  exact ⟨p, hp, a, ha'.1, by simpa using ha'.2, rfl, rfl⟩

/-- Witness for C2: the specification's worked example — incident count
`1`, condition score `3`, criticality `High`, age exactly 20 years
(`7305` days) — is scored `11.9`, and the single record predicted for
that asset carries exactly that specification score. -/
theorem C2_risk_score_formula_witness :
    (∃ p ∈ (⟨1, 1, [("Pole", 1)], [], [], [], none, none⟩ : RiskAnalysis).by_asset_type,
      ∃ a ∈ [(⟨"A1", "a1", "Pole", "El", "High", 3, 0⟩ : Asset)], a.type = p.1
        ∧ (mkRiskEntry 1 7305 ⟨"A1", "a1", "Pole", "El", "High", 3, 0⟩).code = a.code
        ∧ (mkRiskEntry 1 7305 ⟨"A1", "a1", "Pole", "El", "High", 3, 0⟩).risk_score
            = round2 (specRiskScore p.2 a 7305))
    ∧ round2 (specRiskScore 1 ⟨"A1", "a1", "Pole", "El", "High", 3, 0⟩ 7305) = 119 / 10 := by
  constructor
  · refine C2_risk_score_formula ⟨1, 1, [("Pole", 1)], [], [], [], none, none⟩
      [⟨"A1", "a1", "Pole", "El", "High", 3, 0⟩] 7305
      (mkRiskEntry 1 7305 ⟨"A1", "a1", "Pole", "El", "High", 3, 0⟩) ?_
    simp [predict_at_risk_assets, List.insertionSort, List.orderedInsert]
  · have hc : criticality_weight "High" = 1.2 := rfl
    norm_num [specRiskScore, hc, round2, min_def]

/-- Scored codes, one type at a time: splitting a filter over a fresh
head key. -/
theorem filter_cons_key_perm (t : String) (ks : List String) (hks : t ∉ ks) :
    ∀ l : List Asset,
      List.Perm (l.filter (fun a => a.type ∈ t :: ks))
        ((l.filter (fun a => a.type = t)) ++ l.filter (fun a => a.type ∈ ks))
  | [] => by simp
  | a :: l => by
    by_cases h1 : a.type = t
    · have h2 : a.type ∉ ks := fun hc => hks (h1 ▸ hc)
      rw [List.filter_cons_of_pos (by simp [h1]), List.filter_cons_of_pos (by simp [h1]),
        List.filter_cons_of_neg (by simpa using h2)]
      exact (filter_cons_key_perm t ks hks l).cons a
    · by_cases h4 : a.type ∈ ks
      · rw [List.filter_cons_of_pos (by simp [List.mem_cons, h4]),
          List.filter_cons_of_neg (by simpa using h1),
          List.filter_cons_of_pos (by simpa using h4)]
        exact ((filter_cons_key_perm t ks hks l).cons a).trans List.perm_middle.symm
      · have h5 : a.type ∉ t :: ks := by
          simp [List.mem_cons, h1, h4]
        rw [List.filter_cons_of_neg (by simpa using h5),
          List.filter_cons_of_neg (by simpa using h1),
          List.filter_cons_of_neg (by simpa using h4)]
        exact filter_cons_key_perm t ks hks l

/-- The concatenation of the per-type code lists is a permutation of the
codes of the assets whose type occurs among the (distinct) keys. -/
theorem perm_scored_codes (assets : List Asset) :
    ∀ ps : List (String × ℕ), (ps.map Prod.fst).Nodup →
      List.Perm
        ((ps.map (fun p => (assets.filter (fun a => a.type = p.1)).map (fun a => a.code))).flatten)
        ((assets.filter (fun a => a.type ∈ ps.map Prod.fst)).map (fun a => a.code))
  | [], _ => by simp
  | p :: ps, hnd => by
    rw [List.map_cons, List.nodup_cons] at hnd
    rw [List.map_cons, List.flatten_cons, List.map_cons]
    refine (List.Perm.append_left _ (perm_scored_codes assets ps hnd.2)).trans ?_
    rw [← List.map_append]
    exact ((filter_cons_key_perm p.1 (ps.map Prod.fst) hnd.1 assets).symm.map _)

/-- C8: `predict_at_risk_assets` scores exactly the assets whose type is
a key of the by-asset-type breakdown — the multiset of codes of the
output records equals the multiset of codes of the registry assets of a
present type, so an asset of an absent type never appears and every asset
of a present type does. -/
theorem C8_scored_exactly (ra : RiskAnalysis) (assets : List Asset) (now : ℤ)
    (hnd : (ra.by_asset_type.map Prod.fst).Nodup) :
    List.Perm ((predict_at_risk_assets ra assets now).map (fun e => e.code))
      ((assets.filter (fun a => a.type ∈ ra.by_asset_type.map Prod.fst)).map
        (fun a => a.code)) := by
  rw [predict_at_risk_assets]
  refine ((List.perm_insertionSort _ _).map _).trans ?_
  rw [List.map_flatten, List.map_map]
  have hfun : ((List.map (fun e : RiskEntry => e.code)) ∘
      (fun p : String × ℕ => (assets.filter (fun a => a.type = p.1)).map (mkRiskEntry p.2 now)))
      = (fun p : String × ℕ => (assets.filter (fun a => a.type = p.1)).map (fun a => a.code)) := by
    funext p
    show ((assets.filter (fun a => a.type = p.1)).map (mkRiskEntry p.2 now)).map (fun e => e.code)
      = (assets.filter (fun a => a.type = p.1)).map (fun a => a.code)
    rw [List.map_map]
    rfl
  rw [hfun]
  exact perm_scored_codes assets ra.by_asset_type hnd

/-- Witness for C8: one matching and one non-matching asset — only the
matching asset's code is scored. -/
theorem C8_scored_exactly_witness :
    List.Perm ((predict_at_risk_assets ⟨1, 1, [("Pole", 1)], [], [], [], none, none⟩
        [⟨"A1", "a1", "Pole", "El", "High", 3, 0⟩, ⟨"B1", "b1", "Wire", "El", "Low", 9, 0⟩] 7305).map
          (fun e => e.code))
      (([⟨"A1", "a1", "Pole", "El", "High", 3, 0⟩,
          (⟨"B1", "b1", "Wire", "El", "Low", 9, 0⟩ : Asset)].filter
          (fun a => a.type ∈ ([("Pole", 1)] : List (String × ℕ)).map Prod.fst)).map
        (fun a => a.code)) :=
  C8_scored_exactly ⟨1, 1, [("Pole", 1)], [], [], [], none, none⟩
    [⟨"A1", "a1", "Pole", "El", "High", 3, 0⟩, ⟨"B1", "b1", "Wire", "El", "Low", 9, 0⟩] 7305
    (by decide)

/-- Mapping a function through `orderedInsert` when the comparator only
depends on the image. -/
theorem map_orderedInsert_rel {α β : Type} (r : α → α → Prop) [DecidableRel r]
    (s : β → β → Prop) [DecidableRel s] (f : α → β)
    (hrs : ∀ a b, r a b ↔ s (f a) (f b)) (x : α) :
    ∀ l : List α, (List.orderedInsert r x l).map f = List.orderedInsert s (f x) (l.map f)
  | [] => rfl
  | y :: l => by
    rw [List.orderedInsert, List.map_cons, List.orderedInsert]
    by_cases h : r x y
    · rw [if_pos h, if_pos ((hrs x y).mp h), List.map_cons, List.map_cons]
    · rw [if_neg h, if_neg (fun hc => h ((hrs x y).mpr hc)), List.map_cons,
        map_orderedInsert_rel r s f hrs x l]

/-- Mapping a function through `insertionSort` when the comparator only
depends on the image. -/
theorem map_insertionSort_rel {α β : Type} (r : α → α → Prop) [DecidableRel r]
    (s : β → β → Prop) [DecidableRel s] (f : α → β)
    (hrs : ∀ a b, r a b ↔ s (f a) (f b)) :
    ∀ l : List α, (List.insertionSort r l).map f = List.insertionSort s (l.map f)
  | [] => rfl
  | x :: l => by
    rw [List.insertionSort, List.map_cons, List.insertionSort,
      map_orderedInsert_rel r s f hrs, map_insertionSort_rel r s f hrs l]

/-- C3 (counterexample): `predict_at_risk_assets` reads the current time,
so two invocations on the same inputs at different dates can return
different rounded risk scores — here a one-day difference moves the
score of a `Medium`-criticality asset in perfect condition from `1.45`
to `1.46`. -/
theorem C3_counterexample :
    (predict_at_risk_assets ⟨1, 1, [("P", 1)], [], [], [], none, none⟩
        [⟨"X", "x", "P", "c", "Medium", 10, 0⟩] 100).map (fun e => e.risk_score)
      ≠ (predict_at_risk_assets ⟨1, 1, [("P", 1)], [], [], [], none, none⟩
          [⟨"X", "x", "P", "c", "Medium", 10, 0⟩] 101).map (fun e => e.risk_score) := by
  have hc : criticality_weight "Medium" = (1.0 : ℚ) := rfl
  have h1 : (predict_at_risk_assets ⟨1, 1, [("P", 1)], [], [], [], none, none⟩
      [⟨"X", "x", "P", "c", "Medium", 10, 0⟩] 100).map (fun e => e.risk_score) = [29 / 20] := by
    norm_num [predict_at_risk_assets, List.insertionSort, List.orderedInsert,
      mkRiskEntry, hc, round2, min_def]
  have h2 : (predict_at_risk_assets ⟨1, 1, [("P", 1)], [], [], [], none, none⟩
      [⟨"X", "x", "P", "c", "Medium", 10, 0⟩] 101).map (fun e => e.risk_score) = [73 / 50] := by
    norm_num [predict_at_risk_assets, List.insertionSort, List.orderedInsert,
      mkRiskEntry, hc, round2, min_def]
  rw [h1, h2]
  intro hcontra
  rw [List.cons.injEq] at hcontra
  norm_num at hcontra

/-- C3 (amended): the prediction is a deterministic function of its
declared inputs and of each asset's age in days at call time: shifting
every installation date and the current date by the same amount leaves
every output record unchanged except for the reported raw
`installation_date` column.  In particular two invocations at the same
current date return identical results, while invocations on different
dates may differ (see the counterexample). -/
theorem C3_same_age_deterministic (ra : RiskAnalysis) (assets : List Asset) (now d : ℤ) :
    (predict_at_risk_assets ra (assets.map (shiftInstall d)) (now + d)).map eraseInstall
      = (predict_at_risk_assets ra assets now).map eraseInstall := by
  rw [predict_at_risk_assets, predict_at_risk_assets]
  rw [map_insertionSort_rel (fun a b : RiskEntry => b.risk_score ≤ a.risk_score)
      (fun a b : RiskEntry => b.risk_score ≤ a.risk_score) eraseInstall
      (fun a b => Iff.rfl),
    map_insertionSort_rel (fun a b : RiskEntry => b.risk_score ≤ a.risk_score)
      (fun a b : RiskEntry => b.risk_score ≤ a.risk_score) eraseInstall
      (fun a b => Iff.rfl)]
  congr 1
  rw [List.map_flatten, List.map_flatten, List.map_map, List.map_map]
  congr 1
  apply List.map_congr_left
  intro p _
  show (((assets.map (shiftInstall d)).filter (fun a => a.type = p.1)).map
      (mkRiskEntry p.2 (now + d))).map eraseInstall
    = ((assets.filter (fun a => a.type = p.1)).map (mkRiskEntry p.2 now)).map eraseInstall
  rw [List.filter_map, List.map_map, List.map_map, List.map_map]
  apply List.map_congr_left
  intro a _
  show eraseInstall (mkRiskEntry p.2 (now + d) (shiftInstall d a))
    = eraseInstall (mkRiskEntry p.2 now a)
  have hage : now + d - (a.installation_date + d) = now - a.installation_date := by ring
  simp [mkRiskEntry, shiftInstall, eraseInstall, hage]
